import Mathlib

/-!
Verification development for the sheetra workbook-export library.

The definitions below are a shallow embedding of the TypeScript sources:
the document model (`src/core/cell.ts`, `row.ts`, `column.ts`,
`worksheet.ts`, `workbook.ts`, `styles.ts`), the section/layout engine
(`src/builders/section-builder.ts`), the export dispatch
(`workbook.ts`, `src/builders/export-builder.ts`) and the three writers
(`csv-writer.ts`, `json-writer.ts`, `excel-writer.ts`).  JavaScript
numbers are modelled as rationals extended with `NaN` and the two
infinities; JavaScript values as a closed tagged variant; JavaScript
objects as insertion-ordered association lists.  Each definition carries
a comment naming the source function it embeds.
-/

namespace Sheetra

/-- A JavaScript number: a finite rational, `NaN`, `Infinity` or
`-Infinity`.  (IEEE-754 rounding is irrelevant to the claims checked
here: all arithmetic they touch is exact on small integers.) -/
inductive JSNum where
  | nan : JSNum
  | inf : JSNum
  | negInf : JSNum
  | fin : ℚ → JSNum
deriving DecidableEq, Repr

/-- A JavaScript value as the cells and records of this library use
them: `undefined`, `null`, booleans, numbers, strings and `Date`s
(a `Date` is kept as its civil UTC year/month/day, the only parts the
writers read). -/
inductive JSValue where
  | undef : JSValue
  | null : JSValue
  | boolean : Bool → JSValue
  | num : JSNum → JSValue
  | str : String → JSValue
  | date : Int → Int → Int → JSValue
deriving DecidableEq, Repr

/-- JavaScript truthiness of a value (`if (v)`): `undefined`, `null`,
`false`, `0`, `NaN` and the empty string are falsy, everything else
(including every `Date` object) is truthy. -/
def jsTruthy : JSValue → Bool
  | .undef => false
  | .null => false
  | .boolean b => b
  | .num .nan => false
  | .num (.fin q) => q ≠ 0
  | .num _ => true
  | .str s => s ≠ ""
  | .date _ _ _ => true

/-- `String(n)` for a JavaScript number, on the fragment these claims
evaluate (integers and the three special values). -/
def jsNumToString : JSNum → String
  | .nan => "NaN"
  | .inf => "Infinity"
  | .negInf => "-Infinity"
  | .fin q => if q.den = 1 then toString q.num else toString q

/-- `String(v)` for a JavaScript value.  A `Date` stringifies to a
locale-dependent text in JavaScript; the claims never stringify a date
through this path, so a fixed placeholder rendering keeps the function
total. -/
def jsToString : JSValue → String
  | .undef => "undefined"
  | .null => "null"
  | .boolean b => if b then "true" else "false"
  | .num n => jsNumToString n
  | .str s => s
  | .date y m d => toString y ++ "-" ++ toString m ++ "-" ++ toString d

/-- The natural number a list of decimal digits spells. -/
def digitsToNat (l : List Char) : Nat :=
  l.foldl (fun a c => a * 10 + (c.toNat - 48)) 0

/-- `ToNumber` coercion on the fragment the aggregation code exercises:
`null → 0`, `undefined → NaN`, booleans to 0/1, numbers unchanged,
a string to the integer it spells (sign and digits) or `NaN`, and a
`Date` to `NaN` stand-in (dates never reach the aggregates in the
claims below). -/
def jsToNumber : JSValue → JSNum
  | .undef => .nan
  | .null => .fin 0
  | .boolean b => .fin (if b then 1 else 0)
  | .num n => n
  | .str s =>
      match s.data with
      | [] => .fin 0
      | '-' :: rest =>
          if rest ≠ [] ∧ rest.all Char.isDigit then .fin (-(digitsToNat rest : ℚ))
          else .nan
      | l => if l.all Char.isDigit then .fin (digitsToNat l) else .nan
  | .date _ _ _ => .nan

/-- `v != null` — JavaScript loose inequality against `null`, false
exactly for `null` and `undefined`. -/
def jsNotNull : JSValue → Bool
  | .undef => false
  | .null => false
  | _ => true

/-! ## Document model (`src/core`) -/

/-- The five cell type tags (`src/core/cell.ts`). -/
inductive CellType where
  | string : CellType
  | number : CellType
  | date : CellType
  | boolean : CellType
  | formula : CellType
deriving DecidableEq, Repr

/-- One border side: `BorderStyle` of `src/types/cell.types.ts` as the
style builder constructs it (`{ style, color }`). -/
structure BorderStyle where
  style : String
  color : Option String
deriving DecidableEq, Repr

/-- Per-side borders: `Border` of the cell types. -/
structure Border where
  top : Option BorderStyle := none
  right : Option BorderStyle := none
  bottom : Option BorderStyle := none
  left : Option BorderStyle := none
deriving DecidableEq, Repr

/-- `CellStyle`, with the fields `StyleBuilder` (`src/core/styles.ts`)
writes.  All fields are optional, absent in the empty style `{}`. -/
structure CellStyle where
  bold : Option Bool := none
  italic : Option Bool := none
  underline : Option Bool := none
  fontSize : Option ℚ := none
  fontFamily : Option String := none
  color : Option String := none
  backgroundColor : Option String := none
  alignment : Option String := none
  verticalAlignment : Option String := none
  wrapText : Option Bool := none
  border : Option Border := none
  numberFormat : Option String := none
deriving DecidableEq, Repr

/-- `CellData` (`src/types`): the plain-data image of a `Cell`.
Its `type` field carries the same closed union as the class. -/
structure CellData where
  value : JSValue
  style : Option CellStyle
  formula : Option String
  type : CellType
deriving DecidableEq, Repr

/-- `Cell` (`src/core/cell.ts`): private fields `value` (initialised
`null`), `style`, `formula` and `type` (initialised `'string'`). -/
structure Cell where
  value : JSValue := .null
  style : Option CellStyle := none
  formula : Option String := none
  type : CellType := .string
deriving DecidableEq, Repr

/-- `new Cell()` with no arguments. -/
def Cell.new : Cell := {}

/-- `Cell.inferType`: `Date → date`, `number → number`,
`boolean → boolean`, anything else → `string`.  It never touches
`formula`. -/
def Cell.inferType (c : Cell) : Cell :=
  { c with
    type :=
      match c.value with
      | .date _ _ _ => .date
      | .num _ => .number
      | .boolean _ => .boolean
      | _ => .string }

/-- `Cell.setValue`: store the value, then re-infer the type. -/
def Cell.setValue (c : Cell) (v : JSValue) : Cell :=
  Cell.inferType { c with value := v }

/-- `Cell.setStyle` (style may be `undefined`, modelled `none`). -/
def Cell.setStyle (c : Cell) (s : Option CellStyle) : Cell :=
  { c with style := s }

/-- `Cell.setFormula`: store the formula text and force the type to
`'formula'`.  It does not touch `value`. -/
def Cell.setFormula (c : Cell) (f : String) : Cell :=
  { c with formula := some f, type := .formula }

/-- `Cell.setType`. -/
def Cell.setType (c : Cell) (t : CellType) : Cell :=
  { c with type := t }

/-- `new Cell(value?, style?)`: the constructor calls `setValue` only
when a value other than `undefined` was passed, and `setStyle` only
when a (truthy) style was passed. -/
def Cell.make (v : JSValue) (s : Option CellStyle) : Cell :=
  let c := if v = .undef then Cell.new else Cell.new.setValue v
  match s with
  | some st => c.setStyle (some st)
  | none => c

/-- `Cell.toData`. -/
def Cell.toData (c : Cell) : CellData :=
  { value := c.value, style := c.style, formula := c.formula, type := c.type }

/-- The `validTypes` list of `Cell.fromData`. -/
def Cell.validTypes : List CellType :=
  [.string, .number, .boolean, .date, .formula]

/-- `Cell.fromData`: copy the fields; the type is kept only when it is
in `validTypes`, falling back to `'string'`.  The final
`if (cell.value && !cell.type)` re-inference never fires because
`cell.type` is always one of the (truthy, non-empty) tag strings. -/
def Cell.fromData (d : CellData) : Cell :=
  { value := d.value
    style := d.style
    formula := d.formula
    type := if Cell.validTypes.contains d.type then d.type else .string }

/-- `RowData` (`src/types`). -/
structure RowData where
  cells : List CellData
  height : Option ℚ
  hidden : Bool
  outlineLevel : Int
  collapsed : Bool
deriving DecidableEq, Repr

/-- `Row` (`src/core/row.ts`). -/
structure Row where
  cells : List Cell := []
  height : Option ℚ := none
  hidden : Bool := false
  outlineLevel : Int := 0
  collapsed : Bool := false
deriving DecidableEq, Repr

/-- `Row.createCell(value?, style?)` — appends `new Cell(value, style)`
and returns the updated row. -/
def Row.createCell (r : Row) (v : JSValue) (s : Option CellStyle) : Row :=
  { r with cells := r.cells ++ [Cell.make v s] }

/-- `Row.setOutlineLevel(level, collapsed = false)`. -/
def Row.setOutlineLevel (r : Row) (level : Int) (collapsed : Bool) : Row :=
  { r with outlineLevel := level, collapsed := collapsed }

/-- `Row.toData`. -/
def Row.toData (r : Row) : RowData :=
  { cells := r.cells.map Cell.toData
    height := r.height
    hidden := r.hidden
    outlineLevel := r.outlineLevel
    collapsed := r.collapsed }

/-- `n || 0` on a JavaScript number that is an integer here. -/
def jsOrZeroInt (n : Int) : Int := if n = 0 then 0 else n

/-- `Row.fromData`: rebuild the cells, then `height`,
`hidden || false`, `outlineLevel || 0`, `collapsed || false`. -/
def Row.fromData (d : RowData) : Row :=
  { cells := d.cells.map Cell.fromData
    height := d.height
    hidden := d.hidden || false
    outlineLevel := jsOrZeroInt d.outlineLevel
    collapsed := d.collapsed || false }

/-- `ColumnData` (`src/types`). -/
structure ColumnData where
  width : Option ℚ
  hidden : Bool
  outlineLevel : Int
  collapsed : Bool
deriving DecidableEq, Repr

/-- `Column` (`src/core/column.ts`). -/
structure Column where
  width : Option ℚ := none
  hidden : Bool := false
  outlineLevel : Int := 0
  collapsed : Bool := false
deriving DecidableEq, Repr

/-- `Column.toData`. -/
def Column.toData (c : Column) : ColumnData :=
  { width := c.width, hidden := c.hidden
    outlineLevel := c.outlineLevel, collapsed := c.collapsed }

/-- `Column.fromData`: `new Column(data.width)` then `hidden || false`,
`outlineLevel || 0`, `collapsed || false`. -/
def Column.fromData (d : ColumnData) : Column :=
  { width := d.width
    hidden := d.hidden || false
    outlineLevel := jsOrZeroInt d.outlineLevel
    collapsed := d.collapsed || false }

/-- `MergeCell` (`src/types`): inclusive zero-based corners. -/
structure MergeCell where
  startRow : Int
  startCol : Int
  endRow : Int
  endCol : Int
deriving DecidableEq, Repr

/-- `FreezePane`: `{ rows?, columns? }` as `Worksheet.setFreezePane`
stores it. -/
structure FreezePane where
  rows : Option ℚ
  columns : Option ℚ
deriving DecidableEq, Repr

/-- `PrintOptions` is declared in `workbook.types.ts`, a file that is
not part of the sources given; the worksheet carries it verbatim
through `toData`/`fromData`, so an opaque-to-us key/value payload
models it faithfully for the round-trip law. -/
structure PrintOptions where
  props : List (String × JSValue)
deriving DecidableEq, Repr

/-- `WorksheetData` (`src/types`). -/
structure WorksheetData where
  name : String
  rows : List RowData
  columns : List ColumnData
  mergeCells : List MergeCell
  freezePane : Option FreezePane
  printOptions : Option PrintOptions
deriving DecidableEq, Repr

/-- `Worksheet` (`src/core/worksheet.ts`). -/
structure Worksheet where
  name : String
  rows : List Row := []
  columns : List Column := []
  mergedCells : List MergeCell := []
  freezePane : Option FreezePane := none
  printOptions : Option PrintOptions := none
deriving DecidableEq, Repr

/-- `Worksheet.toData`. -/
def Worksheet.toData (w : Worksheet) : WorksheetData :=
  { name := w.name
    rows := w.rows.map Row.toData
    columns := w.columns.map Column.toData
    mergeCells := w.mergedCells
    freezePane := w.freezePane
    printOptions := w.printOptions }

/-- `Worksheet.fromData`.  `data.columns || []` and
`data.mergeCells || []` are the identity here because arrays (empty
ones included) are truthy in JavaScript and `toData` always supplies
them. -/
def Worksheet.fromData (d : WorksheetData) : Worksheet :=
  { name := d.name
    rows := d.rows.map Row.fromData
    columns := d.columns.map Column.fromData
    mergedCells := d.mergeCells
    freezePane := d.freezePane
    printOptions := d.printOptions }

/-- `WorkbookData` (`src/types`): sheet data plus the key→value
property map (a JavaScript object, hence an insertion-ordered
association list). -/
structure WorkbookData where
  sheets : List WorksheetData
  properties : List (String × JSValue)
deriving DecidableEq, Repr

/-- `Workbook` (`src/core/workbook.ts`). -/
structure Workbook where
  sheets : List Worksheet := []
  properties : List (String × JSValue) := []
deriving DecidableEq, Repr

/-- `Workbook.toData`. -/
def Workbook.toData (w : Workbook) : WorkbookData :=
  { sheets := w.sheets.map Worksheet.toData
    properties := w.properties }

/-- `Workbook.fromData` (the static factory builds `new Workbook(data)`
whose constructor calls the instance `fromData`):
`data.properties || {}` is the identity because `toData` always emits
the (truthy) object. -/
def Workbook.fromData (d : WorkbookData) : Workbook :=
  { sheets := d.sheets.map Worksheet.fromData
    properties := d.properties }

/-! ## Tabular-text (CSV) escaping (`src/writers/csv-writer.ts`) -/

/-- zero-padding helpers for ISO date rendering. -/
def pad2 (n : Int) : String :=
  if 0 ≤ n ∧ n < 10 then "0" ++ toString n else toString n

/-- `Date.toISOString().split('T')[0]` for a civil UTC date. -/
def isoDatePart (y m d : Int) : String :=
  toString y ++ "-" ++ pad2 m ++ "-" ++ pad2 d

/-- The display string `generateCSVData` computes for one cell
(lines 23–31 of `csv-writer.ts`): `null`/`undefined` render empty,
a date-typed `Date` renders as the ISO calendar date, everything else
as `String(value)`. -/
def csvDisplayString (c : CellData) : String :=
  match c.value with
  | .null => ""
  | .undef => ""
  | v =>
      if c.type = .date then
        match v with
        | .date y m d => isoDatePart y m d
        | _ => jsToString v
      else jsToString v

/-- The quoting test of `generateCSVData` (line 33): the field contains
a comma, a quote, or a newline (`value.includes(c)`, stated on the
character list of the string). -/
def csvNeedsQuote (s : String) : Bool :=
  s.data.contains ',' || s.data.contains '"' || s.data.contains '\n'

/-- `value.replace(/"/g, String.fromCharCode(34, 34))` — double every
quote. -/
def csvDoubleQuotes (s : String) : String :=
  String.mk (s.data.flatMap fun c => if c = '"' then ['"', '"'] else [c])

/-- The field escape of `generateCSVData` (lines 33–36): quote-wrap
with internal quotes doubled exactly when the field contains a comma,
quote, or newline.  `StringFormatter.escapeCsv` with its default
delimiter is this same transformation. -/
def csvEscapeField (s : String) : String :=
  if csvNeedsQuote s then "\"" ++ csvDoubleQuotes s ++ "\"" else s

/-- `StringFormatter.escapeCsv(str, delimiter = ',')`
(`src/formatters/string-formatter.ts`, lines 282–287). -/
def escapeCsv (s : String) (delimiter : Char := ',') : String :=
  if s.data.contains delimiter || s.data.contains '"' || s.data.contains '\n' then
    "\"" ++ csvDoubleQuotes s ++ "\""
  else s

/-- Modelled from the spec: "standard CSV quoting rules" for reading a
single field back — a field wrapped in quotes has its wrapper removed
and each doubled internal quote collapsed; an unwrapped field is taken
verbatim.  (Collapse step, on the character list.) -/
def csvCollapseQuotes : List Char → List Char
  | [] => []
  | [c] => [c]
  | c1 :: c2 :: rest =>
      if c1 = '"' ∧ c2 = '"' then '"' :: csvCollapseQuotes rest
      else c1 :: csvCollapseQuotes (c2 :: rest)
termination_by l => l.length

/-- Modelled from the spec: parse one escaped CSV field under standard
(RFC4180-style) quoting rules. -/
def csvParseField (s : String) : String :=
  let l := s.data
  if 2 ≤ l.length ∧ l.head? = some '"' ∧ l.getLast? = some '"' then
    String.mk (csvCollapseQuotes ((l.drop 1).dropLast))
  else s

/-! ## Column-letter encoding (`src/writers/excel-writer.ts`) -/

/-- The loop body of `ExcelWriter.columnToLetter` (lines 83–91):
repeatedly prepend the letter for `(column - 1) % 26` and continue with
`(column - 1 - temp) / 26`. -/
def columnLetterAux (n : Nat) : List Char :=
  if n = 0 then []
  else columnLetterAux ((n - 1) / 26) ++ [Char.ofNat (65 + (n - 1) % 26)]
termination_by n
decreasing_by
  have h1 : (n - 1) / 26 ≤ n - 1 := Nat.div_le_self _ _
  omega

/-- `ExcelWriter.columnToLetter`, including the final
`return letters || 'A'` fallback (reached only for `column = 0`). -/
def columnToLetter (n : Nat) : String :=
  let l := columnLetterAux n
  if l = [] then "A" else String.mk l

/-- Decoder for the bijective base-26 letter code, used to certify that
`columnToLetter` is injective (the spec calls the decoding its exact
inverse; no decoder appears in the sources, so this one is the proof
artifact). -/
def letterValue (l : List Char) : Nat :=
  l.foldl (fun acc c => acc * 26 + (c.toNat - 64)) 0

/-! ## Export dispatch (`src/core/workbook.ts`, `src/builders/export-builder.ts`) -/

/-- The three writers the dispatcher can select. -/
inductive WriterKind where
  | excel : WriterKind
  | csv : WriterKind
  | json : WriterKind
deriving DecidableEq, Repr

/-- `s || d` on strings: the default replaces `undefined` and the
(falsy) empty string. -/
def jsOrDefault (s : Option String) (d : String) : String :=
  match s with
  | some x => if x = "" then d else x
  | none => d

/-- `Workbook.export` (lines 105–117 of `workbook.ts`):
`const { format = 'xlsx' } = options`, then a `switch` sending `'csv'`
and `'json'` to their writers and everything else — `'xlsx'` and the
`default` alike — to `ExcelWriter.write`.  There is no error branch:
an unknown format key silently selects the spreadsheet writer. -/
def Workbook.exportWriter (format : Option String) : WriterKind :=
  match format.getD "xlsx" with
  | "csv" => WriterKind.csv
  | "json" => WriterKind.json
  | _ => WriterKind.excel

/-- `name.endsWith(sfx)` on the character lists. -/
def jsEndsWith (s sfx : String) : Bool :=
  sfx.data.isSuffixOf s.data

/-- The filename-based format inference of `ExportBuilder.download`
(lines 1050–1054 of `export-builder.ts`). -/
def inferFormatFromFilename (filename : String) : String :=
  if jsEndsWith filename ".csv" then "csv"
  else if jsEndsWith filename ".json" then "json"
  else "xlsx"

/-- `ExportBuilder.download` writer selection (lines 1048–1059):
`options.filename || 'export.xlsx'`, `options.format || (suffix
inference)`, then an if/else chain ending in
`throw new Error('Unsupported format')` — thrown synchronously, before
`writer.write` is invoked. -/
def ExportBuilder.downloadWriter (filename : Option String)
    (format : Option String) : Except String WriterKind :=
  let name := jsOrDefault filename "export.xlsx"
  let fmt := jsOrDefault format (inferFormatFromFilename name)
  if fmt = "xlsx" then Except.ok WriterKind.excel
  else if fmt = "csv" then Except.ok WriterKind.csv
  else if fmt = "json" then Except.ok WriterKind.json
  else Except.error "Unsupported format"

/-! ## Civil-date arithmetic and ISO week numbers
(`SectionBuilder.getWeekNumber`, `src/builders/section-builder.ts`) -/

/-- Days since 1970-01-01 of a civil UTC date (the day count beneath
`Date.UTC(y, m0, d) / 86400000`), by the standard civil-calendar
algorithm; `fdiv` is floor division, matching the mathematics of the
millisecond arithmetic the source performs. -/
def daysFromCivil (y m d : Int) : Int :=
  let yAdj := if m ≤ 2 then y - 1 else y
  let era := Int.fdiv yAdj 400
  let yoe := yAdj - era * 400
  let mp := if m ≤ 2 then m + 9 else m - 3
  let doy := Int.fdiv (153 * mp + 2) 5 + d - 1
  let doe := yoe * 365 + Int.fdiv yoe 4 - Int.fdiv yoe 100 + doy
  era * 146097 + doe - 719468

/-- The inverse of `daysFromCivil` (the `getUTCFullYear` the source
reads back from the shifted `Date`), same standard algorithm. -/
def civilFromDays (days : Int) : Int × Int × Int :=
  let z := days + 719468
  let era := Int.fdiv z 146097
  let doe := z - era * 146097
  let yoe := Int.fdiv (doe - Int.fdiv doe 1460 + Int.fdiv doe 36524 - Int.fdiv doe 146096) 365
  let y := yoe + era * 400
  let doy := doe - (365 * yoe + Int.fdiv yoe 4 - Int.fdiv yoe 100)
  let mp := Int.fdiv (5 * doy + 2) 153
  let d := doy - Int.fdiv (153 * mp + 2) 5 + 1
  let m := if mp < 10 then mp + 3 else mp - 9
  (if m ≤ 2 then y + 1 else y, m, d)

/-- `SectionBuilder.getWeekNumber` (lines 590–596): normalise the date
to UTC, shift to the Thursday of its ISO week
(`d.getUTCDay() || 7`, then `+ 4 - dayNum`), and count weeks from that
Thursday's Jan 1.  1970-01-01 is a Thursday, so `getUTCDay` is
`(days + 4) mod 7` with Sunday 0.  The final `Math.ceil((diff + 1)/7)`
is `(diff + 1 + 6) / 7` on the non-negative integer `diff`. -/
def getWeekNumber (y m d : Int) : Int :=
  let t := daysFromCivil y m d
  let dow := Int.emod (t + 4) 7
  let dayNum := if dow = 0 then 7 else dow
  let thursday := t + 4 - dayNum
  let yearStart := daysFromCivil (civilFromDays thursday).1 1 1
  Int.fdiv (thursday - yearStart + 1 + 6) 7

/-- The `case 'week'` bucket key of `SectionBuilder.groupByDate`
(lines 564–568), with no `format` override:
`` `${date.getFullYear()}-W${week}` `` — the record's calendar year
(not the ISO week-year) and the unpadded week number. -/
def weekBucketKey (y m d : Int) : String :=
  toString y ++ "-W" ++ toString (getWeekNumber y m d)

/-! ## Records, field access and the aggregation engine
(`src/builders/section-builder.ts`) -/

/-- An application data record: a JavaScript object, i.e. an
insertion-ordered association list of string keys to values. -/
abbrev Rec := List (String × JSValue)

/-- `item[key]`: property access, `undefined` when the key is absent. -/
def jsGet (r : Rec) (k : String) : JSValue :=
  match r.find? (fun p => p.1 = k) with
  | some p => p.2
  | none => JSValue.undef

/-- `s.split(c)` on the character list (`"a"` → `["a"]`,
`"a.b"` → `["a", "b"]`, `""` → `[""]`). -/
def splitCharList (c : Char) : List Char → List (List Char)
  | [] => [[]]
  | x :: xs =>
      let r := splitCharList c xs
      if x = c then [] :: r
      else
        match r with
        | [] => [[x]]
        | h :: t => (x :: h) :: t

/-- `path.split('.')`. -/
def jsSplitDot (s : String) : List String :=
  (splitCharList '.' s.data).map String.mk

/-- `getNestedValue(obj, path)` (lines 660–664):
`path.split('.').reduce((current, key) => current && current[key] !==
undefined ? current[key] : undefined, obj)`.  The records the claims
range over are flat, so the model carries no nested-object values, and
— as in the source when an intermediate value is not an object — any
path of more than one segment yields `undefined`. -/
def getNestedValue (r : Rec) (path : String) : JSValue :=
  match jsSplitDot path with
  | [k] => jsGet r k
  | _ => JSValue.undef

/-- `isNaN(v)` (coercing). -/
def jsIsNaN (v : JSValue) : Bool :=
  jsToNumber v = JSNum.nan

/-- Addition of JavaScript numbers. -/
def jsAddN : JSNum → JSNum → JSNum
  | .nan, _ => .nan
  | _, .nan => .nan
  | .inf, .negInf => .nan
  | .negInf, .inf => .nan
  | .inf, _ => .inf
  | _, .inf => .inf
  | .negInf, _ => .negInf
  | _, .negInf => .negInf
  | .fin a, .fin b => .fin (a + b)

/-- The `+` of `values.reduce((a, b) => a + b, 0)`: string operands
concatenate, anything else adds after `ToNumber` coercion.  (No operand
in the claims is a `Date`, whose object-to-primitive step the model
does not reproduce.) -/
def jsAddV (a b : JSValue) : JSValue :=
  match a, b with
  | .str _, _ => .str (jsToString a ++ jsToString b)
  | _, .str _ => .str (jsToString a ++ jsToString b)
  | _, _ => .num (jsAddN (jsToNumber a) (jsToNumber b))

/-- Division of JavaScript numbers: `0/0` is `NaN`, `x/0` is a signed
infinity, finite over infinite is `0` (signed zeros not tracked). -/
def jsDivN : JSNum → JSNum → JSNum
  | .nan, _ => .nan
  | _, .nan => .nan
  | .inf, .inf => .nan
  | .inf, .negInf => .nan
  | .negInf, .inf => .nan
  | .negInf, .negInf => .nan
  | .inf, .fin b => if b < 0 then .negInf else .inf
  | .negInf, .fin b => if b < 0 then .inf else .negInf
  | .fin _, .inf => .fin 0
  | .fin _, .negInf => .fin 0
  | .fin a, .fin b =>
      if b = 0 then (if a = 0 then .nan else if 0 < a then .inf else .negInf)
      else .fin (a / b)

/-- Two-argument step of `Math.min`: `NaN` wins over everything. -/
def jsMinN : JSNum → JSNum → JSNum
  | .nan, _ => .nan
  | _, .nan => .nan
  | .negInf, _ => .negInf
  | _, .negInf => .negInf
  | .inf, b => b
  | a, .inf => a
  | .fin a, .fin b => .fin (min a b)

/-- Two-argument step of `Math.max`. -/
def jsMaxN : JSNum → JSNum → JSNum
  | .nan, _ => .nan
  | _, .nan => .nan
  | .inf, _ => .inf
  | _, .inf => .inf
  | .negInf, b => b
  | a, .negInf => a
  | .fin a, .fin b => .fin (max a b)

/-- The five aggregate function tags. -/
inductive AggFunc where
  | sum : AggFunc
  | average : AggFunc
  | count : AggFunc
  | min : AggFunc
  | max : AggFunc
deriving DecidableEq, Repr

/-- `SectionBuilder.addSummarySection` per-field computation
(lines 153–173): `values = data.map(item => getNestedValue(item,
field)).filter(v => v != null)`, then the switch —
`sum`: `reduce((a,b) => a+b, 0)`; `average`: that sum divided by
`values.length`; `count`: `values.length`; `min`/`max`:
`Math.min(...values)` / `Math.max(...values)` (empty spread gives
`Infinity` / `-Infinity`). -/
def addSummarySectionAgg (data : List Rec) (field : String)
    (func : AggFunc) : JSValue :=
  let values := (data.map fun item => getNestedValue item field).filter
    fun v => jsNotNull v
  match func with
  | .sum => values.foldl jsAddV (JSValue.num (JSNum.fin 0))
  | .average =>
      JSValue.num (jsDivN
        (jsToNumber (values.foldl jsAddV (JSValue.num (JSNum.fin 0))))
        (JSNum.fin values.length))
  | .count => JSValue.num (JSNum.fin values.length)
  | .min => JSValue.num ((values.map jsToNumber).foldl jsMinN JSNum.inf)
  | .max => JSValue.num ((values.map jsToNumber).foldl jsMaxN JSNum.negInf)

/-- `Section.addSummaryRow` per-field computation (lines 838–862):
the filter also drops `NaN`-coercing values
(`v != null && !isNaN(v)`), and the empty-set average is guarded to
`0` (`values.length ? sum / values.length : 0`). -/
def addSummaryRowAgg (data : List Rec) (field : String)
    (func : AggFunc) : JSValue :=
  let values := (data.map fun item => getNestedValue item field).filter
    fun v => jsNotNull v && !(jsIsNaN v)
  match func with
  | .sum => values.foldl jsAddV (JSValue.num (JSNum.fin 0))
  | .average =>
      if values.length = 0 then JSValue.num (JSNum.fin 0)
      else
        JSValue.num (jsDivN
          (jsToNumber (values.foldl jsAddV (JSValue.num (JSNum.fin 0))))
          (JSNum.fin values.length))
  | .count => JSValue.num (JSNum.fin values.length)
  | .min => JSValue.num ((values.map jsToNumber).foldl jsMinN JSNum.inf)
  | .max => JSValue.num ((values.map jsToNumber).foldl jsMaxN JSNum.negInf)

/-! ## Structured-record (JSON) writer (`src/writers/json-writer.ts`) -/

/-- `Date.toISOString()` for a civil UTC date (the model keeps dates at
UTC midnight). -/
def isoTimestamp (y m d : Int) : String :=
  isoDatePart y m d ++ "T00:00:00.000Z"

/-- The header computation of `JSONWriter.generateJSONData`
(lines 141–145): `rows[0].getCells().map(cell => { const value =
cell.toData().value; return value ? String(value) :
backtick-Column(headers.length + 1) })`.  The fallback branch for a
falsy header value reads `headers` inside its own initializer — a
temporal-dead-zone access — so at runtime it raises a `ReferenceError`
instead of producing the placeholder.  The model returns the error the
moment any header cell value is falsy. -/
def jsonHeaders (cells : List Cell) : Except String (List String) :=
  if cells.all (fun c => jsTruthy (Cell.toData c).value) then
    Except.ok (cells.map fun c => jsToString (Cell.toData c).value)
  else
    Except.error "ReferenceError: cannot access headers before initialization"

/-- `rowData[key] = value`: JavaScript object assignment — overwrite in
place when the key exists, else append. -/
def jsonAssocSet (r : Rec) (k : String) (v : JSValue) : Rec :=
  if r.any (fun p => p.1 = k) then
    r.map fun p => if p.1 = k then (k, v) else p
  else r ++ [(k, v)]

/-- The per-cell value of the JSON writer (lines 153–159): a date-typed
`Date` serialises as the full ISO-8601 timestamp, anything else is the
raw value. -/
def jsonCellValue (c : Cell) : JSValue :=
  match (Cell.toData c).type, (Cell.toData c).value with
  | CellType.date, JSValue.date y m d => JSValue.str (isoTimestamp y m d)
  | _, v => v

/-- One output record (lines 149–161): each cell whose index is below
the header count contributes `rowData[headers[index]] = value`. -/
def jsonRecordOfRow (headers : List String) (cells : List Cell) : Rec :=
  cells.enum.foldl
    (fun acc p =>
      if p.1 < headers.length then
        jsonAssocSet acc (headers.getD p.1 "") (jsonCellValue p.2)
      else acc)
    []

/-- `JSONWriter.generateJSONData` (lines 133–166) on the first sheet's
rows: empty sheet gives `[]`; otherwise the first row yields the
headers (or the header computation throws, see `jsonHeaders`) and every
later row yields one record. -/
def generateJSONData (sheetRows : List Row) : Except String (List Rec) :=
  match sheetRows with
  | [] => Except.ok []
  | r0 :: rest =>
      match jsonHeaders r0.cells with
      | Except.error e => Except.error e
      | Except.ok headers =>
          Except.ok (rest.map fun r => jsonRecordOfRow headers r.cells)

/-! ## Style builder with reference semantics (`src/core/styles.ts`)

`StyleBuilder.build()` returns `{ ...this.style }` — a shallow copy.
Top-level fields are value-copied, but the nested `border` object is
shared by reference between the builder and every style built while it
exists.  The model makes the reference explicit: border records live in
a heap (addressed by allocation order) and a style's `border` field
holds an address. -/

/-- The builder's private `style` record with the `border` field as a
heap address. -/
structure StyleTop where
  bold : Option Bool := none
  italic : Option Bool := none
  underline : Option Bool := none
  fontSize : Option ℚ := none
  fontFamily : Option String := none
  color : Option String := none
  backgroundColor : Option String := none
  alignment : Option String := none
  verticalAlignment : Option String := none
  wrapText : Option Bool := none
  borderRef : Option Nat := none
  numberFormat : Option String := none
deriving DecidableEq, Repr

/-- A builder session: the border heap, the current `style` record, and
the styles returned by `build()` so far (each a shallow copy, hence
still holding a heap address). -/
structure SBState where
  heap : List Border := []
  cur : StyleTop := {}
  built : List StyleTop := []
deriving DecidableEq, Repr

/-- The `StyleBuilder` method calls. -/
inductive SBOp where
  | bold : Bool → SBOp
  | italic : Bool → SBOp
  | underline : Bool → SBOp
  | fontSize : ℚ → SBOp
  | fontFamily : String → SBOp
  | color : String → SBOp
  | backgroundColor : String → SBOp
  | align : String → SBOp
  | verticalAlign : String → SBOp
  | wrapText : Bool → SBOp
  | numberFormat : String → SBOp
  | border : Border → SBOp
  | borderTop : String → Option String → SBOp
  | borderRight : String → Option String → SBOp
  | borderBottom : String → Option String → SBOp
  | borderLeft : String → Option String → SBOp
  | borderAll : String → Option String → SBOp
  | build : SBOp
deriving Repr

/-- A border-side mutator (`borderTop` etc., lines 207–229):
`if (!this.style.border) this.style.border = {}` allocates a fresh
record, then the side is assigned — on the possibly shared record. -/
def sbSetSide (st : SBState) (f : Border → Border) : SBState :=
  match st.cur.borderRef with
  | none =>
      { st with
        heap := st.heap ++ [f {}]
        cur := { st.cur with borderRef := some st.heap.length } }
  | some a => { st with heap := st.heap.set a (f (st.heap.getD a {})) }

/-- The four identical sides `borderAll` assigns (it builds one
`borderStyle` object and a fresh `border` record, lines 231–240). -/
def borderAllRecord (s : String) (c : Option String) : Border :=
  let bs : BorderStyle := { style := s, color := c }
  { top := some bs, bottom := some bs, left := some bs, right := some bs }

/-- One `StyleBuilder` method call as a state transition.  `border(b)`
and `borderAll` assign a fresh record to `this.style.border` (the old
record, if any, stays only in previously built styles); `build` appends
a shallow copy of the current record. -/
def sbStep (st : SBState) (op : SBOp) : SBState :=
  match op with
  | .bold b => { st with cur := { st.cur with bold := some b } }
  | .italic b => { st with cur := { st.cur with italic := some b } }
  | .underline b => { st with cur := { st.cur with underline := some b } }
  | .fontSize n => { st with cur := { st.cur with fontSize := some n } }
  | .fontFamily s => { st with cur := { st.cur with fontFamily := some s } }
  | .color s => { st with cur := { st.cur with color := some s } }
  | .backgroundColor s =>
      { st with cur := { st.cur with backgroundColor := some s } }
  | .align s => { st with cur := { st.cur with alignment := some s } }
  | .verticalAlign s =>
      { st with cur := { st.cur with verticalAlignment := some s } }
  | .wrapText b => { st with cur := { st.cur with wrapText := some b } }
  | .numberFormat s =>
      { st with cur := { st.cur with numberFormat := some s } }
  | .border b =>
      { st with
        heap := st.heap ++ [b]
        cur := { st.cur with borderRef := some st.heap.length } }
  | .borderTop s c => sbSetSide st fun b => { b with top := some ⟨s, c⟩ }
  | .borderRight s c => sbSetSide st fun b => { b with right := some ⟨s, c⟩ }
  | .borderBottom s c => sbSetSide st fun b => { b with bottom := some ⟨s, c⟩ }
  | .borderLeft s c => sbSetSide st fun b => { b with left := some ⟨s, c⟩ }
  | .borderAll s c =>
      { st with
        heap := st.heap ++ [borderAllRecord s c]
        cur := { st.cur with borderRef := some st.heap.length } }
  | .build => { st with built := st.built ++ [st.cur] }

/-- Run a call sequence from a fresh `StyleBuilder.create()`. -/
def sbRun (ops : List SBOp) : SBState :=
  ops.foldl sbStep {}

/-- The observable value of a (built or current) style record under a
heap: dereference the border address.  This is the `CellStyle` a
consumer of the built style sees. -/
def sbObserve (heap : List Border) (s : StyleTop) : CellStyle :=
  { bold := s.bold, italic := s.italic, underline := s.underline
    fontSize := s.fontSize, fontFamily := s.fontFamily, color := s.color
    backgroundColor := s.backgroundColor, alignment := s.alignment
    verticalAlignment := s.verticalAlignment, wrapText := s.wrapText
    border := s.borderRef.map fun a => heap.getD a {}
    numberFormat := s.numberFormat }

/-- Well-formedness: every border address held by the builder or a
built style points into the heap. -/
def sbWFb (st : SBState) : Bool :=
  (st.built.all fun t =>
    match t.borderRef with
    | none => true
    | some a => decide (a < st.heap.length)) &&
  (match st.cur.borderRef with
   | none => true
   | some a => decide (a < st.heap.length))

/-- A call is aliasing-safe when it is not a border-side mutation on an
already existing (hence possibly shared) border record. -/
def sbSafeOpb (st : SBState) (op : SBOp) : Bool :=
  match op with
  | .borderTop _ _ => st.cur.borderRef.isNone
  | .borderRight _ _ => st.cur.borderRef.isNone
  | .borderBottom _ _ => st.cur.borderRef.isNone
  | .borderLeft _ _ => st.cur.borderRef.isNone
  | _ => true

/-! ## Section/layout engine (`src/builders/section-builder.ts`) -/

/-- Truthiness of an optional string (`if (this.config.title)`):
`undefined` and the empty string are falsy. -/
def jsStrTruthy : Option String → Bool
  | none => false
  | some s => s ≠ ""

/-- `this.config.fieldLabels?.[field] || field`. -/
def fieldLabelFor (labels : List (String × String)) (field : String) : String :=
  match labels.find? (fun p => p.1 = field) with
  | some p => if p.2 = "" then field else p.2
  | none => field

/-- The depth-shading palette of `Section.getHeaderColor`
(lines 806–814). -/
def sectionHeaderColors : List String :=
  ["#e6f2ff", "#f0f0f0", "#f9f9f9", "#ffffff"]

/-- `colors[Math.min(level, colors.length - 1)]`: levels ≥ 3 share the
last entry; a negative level indexes nothing (`undefined`). -/
def getHeaderColor (level : Int) : Option String :=
  let i := min level 3
  if 0 ≤ i then some (sectionHeaderColors.getD i.toNat "") else none

/-- The default section-header style chain of `Section.build`
(lines 696–702): bold, font size 12, depth-shaded background, all
borders thin. -/
def defaultSectionHeaderStyle (level : Int) : CellStyle :=
  { bold := some true, fontSize := some 12
    backgroundColor := getHeaderColor level
    border := some (borderAllRecord "thin" none) }

/-- The collapse-indicator cell style (lines 709–714). -/
def indicatorCellStyle : CellStyle :=
  { bold := some true, color := some "#666666" }

/-- The field-label header cell style (lines 730–736). -/
def fieldHeaderStyle : CellStyle :=
  { bold := some true, backgroundColor := some "#e6e6e6"
    border := some (borderAllRecord "thin" none) }

/-- The summary label cell style (lines 827–833). -/
def summaryLabelStyle : CellStyle :=
  { bold := some true, italic := some true
    backgroundColor := some "#f5f5f5" }

/-- The summary value cell style (lines 865–870). -/
def summaryValueStyle (f : AggFunc) : CellStyle :=
  { bold := some true
    numberFormat := some (if f = AggFunc.count then "#,##0" else "#,##0.00") }

/-- The `summary` member of a `SectionConfig`
(`{ fields, function, label }`). -/
structure SummarySpec where
  fields : List String
  func : AggFunc
  label : Option String

/-- One conditional-style rule (`{ field, condition, style }`). -/
structure CondStyle where
  field : String
  condition : Rec → Bool
  style : CellStyle

/-- `SectionConfig` as the section builder reads it: title, outline
level, collapsed flag, data records, optional field list, field labels,
optional summary spec, optional data-cell style, optional header style,
optional conditional-style rules, optional subsections. -/
inductive SectionConfig where
  | mk
      (title : Option String)
      (level : Int)
      (collapsed : Bool)
      (data : List Rec)
      (fields : Option (List String))
      (fieldLabels : List (String × String))
      (summary : Option SummarySpec)
      (style : Option CellStyle)
      (headerStyle : Option CellStyle)
      (conditionalStyles : Option (List CondStyle))
      (subSections : Option (List SectionConfig))

/-- `Section.hasContent` (lines 798–801):
`data.length > 0 || (subSections && subSections.length > 0)`. -/
def sectionHasContent (data : List Rec)
    (subs : Option (List SectionConfig)) : Bool :=
  !data.isEmpty ||
    (match subs with
     | some l => !l.isEmpty
     | none => false)

/-- `Worksheet.createRow()`: append a row (the source mutates the
returned row in place before the next append; the model appends the
finished row, which yields the same worksheet). -/
def Worksheet.appendRow (ws : Worksheet) (r : Row) : Worksheet :=
  { ws with rows := ws.rows ++ [r] }

mutual

/-- `Section.build` (lines 685–783).  In order: the header row (when
the title is truthy) with the depth-styled title cell and — when the
section has content — the collapse indicator; then, when not collapsed
and data is present, the field-label header row, one data row per
record (first matching conditional rule, then the section style,
applied per cell) and the summary row; finally the subsections, each
continuing the row cursor.  Returns the worksheet and the cursor. -/
def sectionBuild (ws : Worksheet) (cfg : SectionConfig) (startRow : Int) :
    Worksheet × Int :=
  match cfg with
  | .mk title level collapsed data fields fieldLabels summary style
      headerStyle condStyles subs =>
    let step1 : Worksheet × Int :=
      if jsStrTruthy title then
        let r := (({} : Row).setOutlineLevel level false).createCell
          (JSValue.str (title.getD ""))
          (some (headerStyle.getD (defaultSectionHeaderStyle level)))
        let r :=
          if sectionHasContent data subs then
            r.createCell (JSValue.str (if collapsed then "▶" else "▼"))
              (some indicatorCellStyle)
          else r
        (ws.appendRow r, startRow + 1)
      else (ws, startRow)
    let step2 : Worksheet × Int :=
      if !collapsed && !data.isEmpty then
        let stepA : Worksheet × Int :=
          match fields with
          | some fl =>
              if fl.isEmpty then step1
              else
                let r := fl.foldl
                  (fun r field =>
                    r.createCell (JSValue.str (fieldLabelFor fieldLabels field))
                      (some fieldHeaderStyle))
                  (({} : Row).setOutlineLevel (level + 1) false)
                (step1.1.appendRow r, step1.2 + 1)
          | none => step1
        let stepB : Worksheet × Int :=
          data.foldl
            (fun acc item =>
              let r := (fields.getD (item.map Prod.fst)).foldl
                (fun r field =>
                  let value := getNestedValue item field
                  let condSty :=
                    match condStyles with
                    | some rules =>
                        (rules.find? fun rule =>
                          rule.field = field && rule.condition item).map
                          CondStyle.style
                    | none => none
                  let finalSty :=
                    match style with
                    | some s => some s
                    | none => condSty
                  r.createCell value finalSty)
                (({} : Row).setOutlineLevel (level + 1) false)
              (acc.1.appendRow r, acc.2 + 1))
            stepA
        match summary with
        | some sm =>
            let r := (fields.getD []).foldl
              (fun r field =>
                if sm.fields.contains field then
                  r.createCell (addSummaryRowAgg data field sm.func)
                    (some (summaryValueStyle sm.func))
                else r.createCell (JSValue.str "") none)
              ((({} : Row).setOutlineLevel (level + 2) false).createCell
                (JSValue.str (jsOrDefault sm.label "Total"))
                (some summaryLabelStyle))
            (stepB.1.appendRow r, stepB.2 + 1)
        | none => stepB
      else step1
    if !collapsed then
      match subs with
      | some l => sectionBuildList step2.1 l step2.2
      | none => step2
    else step2

/-- The subsection loop of `Section.build` (lines 774–780). -/
def sectionBuildList (ws : Worksheet) (cfgs : List SectionConfig)
    (startRow : Int) : Worksheet × Int :=
  match cfgs with
  | [] => (ws, startRow)
  | c :: rest =>
      let r := sectionBuild ws c startRow
      sectionBuildList r.1 rest r.2

end

/-- The reducer body of `SectionBuilder.groupData` (lines 526–536):
`key = String(item[groupBy])`; an existing key gets the record appended
to its group, a new key appends a fresh group. -/
def groupDataStep (groupKey : String) (groups : List (String × List Rec))
    (item : Rec) : List (String × List Rec) :=
  let key := jsToString (jsGet item groupKey)
  match groups.find? (fun p => p.1 = key) with
  | some _ =>
      groups.map fun p => if p.1 = key then (p.1, p.2 ++ [item]) else p
  | none => groups ++ [(key, [item])]

/-- `SectionBuilder.groupData` (lines 525–537) with a property-key
grouping criterion: reduce over the records from an empty object;
groups appear in first-seen key order, each group in original record
order. -/
def groupData (data : List Rec) (groupKey : String) :
    List (String × List Rec) :=
  data.foldl (groupDataStep groupKey) []

/-- A canonical array-index property key (`"0"`, `"7"`, `"42"`, …):
all digits, no leading zero, below 2^32 − 1.  JavaScript objects
enumerate these keys first, in ascending numeric order. -/
def isArrayIndexKey (s : String) : Bool :=
  !s.data.isEmpty && s.data.all Char.isDigit &&
    (s.data = ['0'] || s.data.head? ≠ some '0') &&
    decide (digitsToNat s.data < 4294967295)

/-- Insert into a list sorted by numeric key value. -/
def insertByKeyValue (x : String × List Rec) :
    List (String × List Rec) → List (String × List Rec)
  | [] => [x]
  | y :: ys =>
      if digitsToNat x.1.data ≤ digitsToNat y.1.data then x :: y :: ys
      else y :: insertByKeyValue x ys

/-- `Object.entries` enumeration order on a JavaScript object:
canonical array-index keys first, in ascending numeric order, then the
remaining keys in insertion order. -/
def jsObjectEntries (l : List (String × List Rec)) :
    List (String × List Rec) :=
  (l.filter fun p => isArrayIndexKey p.1).foldr insertByKeyValue [] ++
    l.filter fun p => !isArrayIndexKey p.1

/-- The per-group summary spec `createFromData` builds
(`{ fields: summary.fields, function: summary.functions[0] || 'count',
label: "Total for <key>" }`). -/
def summaryToSpec (sm : Option (List String × List AggFunc)) (key : String) :
    Option SummarySpec :=
  match sm with
  | none => none
  | some p => some ⟨p.1, p.2.headD AggFunc.count, some ("Total for " ++ key)⟩

/-- One group subsection of `createFromData` (lines 116–128): titled
`"<groupBy>: <key>"`, one level deeper, **collapsed**, holding the
partition as data. -/
def mkGroupSub (groupKey : String) (level : Int) (flds : List String)
    (fieldLabels : List (String × String))
    (sm : Option (List String × List AggFunc)) (p : String × List Rec) :
    SectionConfig :=
  SectionConfig.mk (some (groupKey ++ ": " ++ p.1)) (level + 1) true p.2
    (some flds) fieldLabels (summaryToSpec sm p.1) none none none none

/-- `SectionBuilder.createFromData` (lines 65–132) on the grouped path
(`groupBy` a property key): resolve the field list
(`options.fields` or `Object.keys(data[0] || {})`), partition the data,
and build a main section whose subsections are the groups in
`Object.entries` order, each collapsed. -/
def createFromDataGrouped (ws : Worksheet) (title : String)
    (data : List Rec) (groupKey : String) (fields : Option (List String))
    (fieldLabels : List (String × String)) (level : Int) (collapsed : Bool)
    (sm : Option (List String × List AggFunc)) (startRow : Int) :
    Worksheet × Int :=
  let flds := fields.getD
    (match data with
     | [] => []
     | r :: _ => r.map Prod.fst)
  let groups := groupData data groupKey
  let subs := (jsObjectEntries groups).map
    (mkGroupSub groupKey level flds fieldLabels sm)
  sectionBuild ws
    (SectionConfig.mk (some title) level collapsed [] none [] none none
      none none (some subs))
    startRow

/-- The header row a section with truthy title emits (no custom header
style): the styled title cell plus — when the section has content — the
collapse indicator. -/
def sectionHeaderRow (t : String) (lvl : Int) (collapsed : Bool)
    (hasContent : Bool) : Row :=
  let r := (({} : Row).setOutlineLevel lvl false).createCell (JSValue.str t)
    (some (defaultSectionHeaderStyle lvl))
  if hasContent then
    r.createCell (JSValue.str (if collapsed then "▶" else "▼"))
      (some indicatorCellStyle)
  else r

/-! Round-trip helper lemmas, innermost entity outward. -/

theorem cell_fromData_toData (c : Cell) : Cell.fromData (Cell.toData c) = c := by
  cases c with
  | mk v s f t => cases t <;> rfl

theorem jsOrZeroInt_eq (n : Int) : jsOrZeroInt n = n := by
  unfold jsOrZeroInt
  split <;> omega

theorem row_fromData_toData (r : Row) : Row.fromData (Row.toData r) = r := by
  cases r with
  | mk cells height hidden ol col =>
    simp [Row.fromData, Row.toData, jsOrZeroInt_eq, List.map_map,
      Function.comp_def, cell_fromData_toData]

theorem column_fromData_toData (c : Column) :
    Column.fromData (Column.toData c) = c := by
  cases c with
  | mk w h ol col => simp [Column.fromData, Column.toData, jsOrZeroInt_eq]

theorem worksheet_fromData_toData (w : Worksheet) :
    Worksheet.fromData (Worksheet.toData w) = w := by
  cases w with
  | mk name rows cols merges fp po =>
    simp [Worksheet.fromData, Worksheet.toData, List.map_map,
      Function.comp_def, row_fromData_toData, column_fromData_toData]

end Sheetra

/-- C1: for every constructible Workbook `W`,
`Workbook.fromData (W.toData)` is structurally equal to `W` — the same
sheets in the same order, with the same rows, cells (value, type,
formula, style), columns, merge regions, freeze panes, print options,
and the same property map. -/
theorem C1_workbook_roundtrip (W : Sheetra.Workbook) :
    Sheetra.Workbook.fromData (Sheetra.Workbook.toData W) = W := by
  cases W with
  | mk sheets props =>
    simp [Sheetra.Workbook.fromData, Sheetra.Workbook.toData, List.map_map,
      Function.comp_def, Sheetra.worksheet_fromData_toData]

namespace Sheetra

theorem String.mk_data_eq (s : String) : String.mk s.data = s := by
  cases s
  rfl

theorem csvCollapseQuotes_cons_ne (c : Char) (hc : c ≠ '"') (xs : List Char) :
    csvCollapseQuotes (c :: xs) = c :: csvCollapseQuotes xs := by
  cases xs with
  | nil => simp [csvCollapseQuotes]
  | cons d ys =>
    rw [csvCollapseQuotes]
    simp [hc]

theorem csvCollapseQuotes_quote_quote (xs : List Char) :
    csvCollapseQuotes ('"' :: '"' :: xs) = '"' :: csvCollapseQuotes xs := by
  rw [csvCollapseQuotes]
  simp

theorem csvCollapseQuotes_doubleQuotes (l : List Char) :
    csvCollapseQuotes (l.flatMap fun c => if c = '"' then ['"', '"'] else [c]) = l := by
  induction l with
  | nil => simp [csvCollapseQuotes]
  | cons c rest ih =>
    by_cases hc : c = '"'
    · subst hc
      rw [show (('"' :: rest).flatMap fun c => if c = '"' then ['"', '"'] else [c]) =
          '"' :: '"' :: (rest.flatMap fun c => if c = '"' then ['"', '"'] else [c]) by simp]
      rw [csvCollapseQuotes_quote_quote, ih]
    · rw [show ((c :: rest).flatMap fun c => if c = '"' then ['"', '"'] else [c]) =
          c :: (rest.flatMap fun c => if c = '"' then ['"', '"'] else [c]) by simp [hc]]
      rw [csvCollapseQuotes_cons_ne c hc, ih]

theorem csvParseField_escape (s : String) (h : csvNeedsQuote s = true) :
    csvParseField (csvEscapeField s) = s := by
  have hesc : csvEscapeField s = "\"" ++ csvDoubleQuotes s ++ "\"" := by
    simp [csvEscapeField, h]
  have hdata : (csvEscapeField s).data = '"' :: ((csvDoubleQuotes s).data ++ ['"']) := by
    rw [hesc]
    simp [String.data_append]
  rw [csvParseField, hdata]
  have hcond : 2 ≤ ('"' :: ((csvDoubleQuotes s).data ++ ['"'])).length ∧
      ('"' :: ((csvDoubleQuotes s).data ++ ['"'])).head? = some '"' ∧
      ('"' :: ((csvDoubleQuotes s).data ++ ['"'])).getLast? = some '"' := by
    refine ⟨?_, by simp, ?_⟩
    · simp only [List.length_cons, List.length_append, List.length_singleton]
      omega
    · show (('"' :: (csvDoubleQuotes s).data) ++ ['"']).getLast? = some '"'
      exact List.getLast?_concat _
  rw [if_pos hcond]
  simp only [List.drop_succ_cons, List.drop_zero, List.dropLast_concat]
  show String.mk (csvCollapseQuotes (csvDoubleQuotes s).data) = s
  have : (csvDoubleQuotes s).data
      = s.data.flatMap fun c => if c = '"' then ['"', '"'] else [c] := rfl
  rw [this, csvCollapseQuotes_doubleQuotes, String.mk_data_eq]

theorem letterValue_concat (xs : List Char) (c : Char) :
    letterValue (xs ++ [c]) = letterValue xs * 26 + (c.toNat - 64) := by
  simp [letterValue, List.foldl_append]

theorem char_toNat_ofNat_letter (r : Nat) (hr : r < 26) :
    (Char.ofNat (65 + r)).toNat = 65 + r := by
  interval_cases r <;> rfl

theorem letterValue_columnLetterAux (n : Nat) :
    letterValue (columnLetterAux n) = n := by
  induction n using Nat.strong_induction_on with
  | _ n ih =>
    rw [columnLetterAux]
    split
    · simp [letterValue, *]
    · rename_i h
      rw [letterValue_concat]
      have hlt : (n - 1) / 26 < n := by
        have := Nat.div_le_self (n - 1) 26
        omega
      rw [ih _ hlt]
      have hr : (n - 1) % 26 < 26 := Nat.mod_lt _ (by norm_num)
      rw [char_toNat_ofNat_letter _ hr]
      have := Nat.div_add_mod (n - 1) 26
      omega

theorem columnLetterAux_ne_nil (n : Nat) (h : n ≠ 0) : columnLetterAux n ≠ [] := by
  rw [columnLetterAux]
  simp [h]

end Sheetra

/-- C5: the CSV writer quote-wraps a cell's display string with internal
quotes doubled exactly when it contains a comma, quote, or newline, and
a field so escaped re-parses under standard CSV quoting rules to the
original string. -/
theorem C5_csv_escape_roundtrip (s : String) :
    (Sheetra.csvNeedsQuote s = true →
      Sheetra.csvEscapeField s = "\"" ++ Sheetra.csvDoubleQuotes s ++ "\"" ∧
      Sheetra.csvParseField (Sheetra.csvEscapeField s) = s) ∧
    (Sheetra.csvNeedsQuote s = false → Sheetra.csvEscapeField s = s) := by
  constructor
  · intro h
    exact ⟨by simp [Sheetra.csvEscapeField, h], Sheetra.csvParseField_escape s h⟩
  · intro h
    simp [Sheetra.csvEscapeField, h]

/-- Witness for C5 at the concrete field `a,"b` (contains a comma and a
quote). -/
theorem C5_csv_escape_roundtrip_witness :
    Sheetra.csvNeedsQuote "a,\"b" = true ∧
    Sheetra.csvParseField (Sheetra.csvEscapeField "a,\"b") = "a,\"b" :=
  ⟨by decide, ((C5_csv_escape_roundtrip "a,\"b").1 (by decide)).2⟩

/-- C6: `ExcelWriter.columnToLetter` is the bijective base-26 encoding
on positive integers: every positive integer gets a non-empty letter
string, distinct positive integers get distinct strings, and
1→"A", 26→"Z", 27→"AA", 702→"ZZ", 703→"AAA". -/
theorem C6_column_letter_bijection :
    (∀ n : Nat, 0 < n → Sheetra.columnToLetter n ≠ "") ∧
    (∀ n m : Nat, 0 < n → 0 < m →
      Sheetra.columnToLetter n = Sheetra.columnToLetter m → n = m) ∧
    Sheetra.columnToLetter 1 = "A" ∧
    Sheetra.columnToLetter 26 = "Z" ∧
    Sheetra.columnToLetter 27 = "AA" ∧
    Sheetra.columnToLetter 702 = "ZZ" ∧
    Sheetra.columnToLetter 703 = "AAA" := by
  have hmk : ∀ n : Nat, 0 < n →
      Sheetra.columnToLetter n = String.mk (Sheetra.columnLetterAux n) := by
    intro n hn
    rw [Sheetra.columnToLetter]
    simp [Sheetra.columnLetterAux_ne_nil n (by omega)]
  refine ⟨?_, ?_, ?_, ?_, ?_, ?_, ?_⟩
  · intro n hn
    rw [hmk n hn]
    intro hcon
    exact Sheetra.columnLetterAux_ne_nil n (by omega)
      (by simpa using congrArg String.data hcon)
  · intro n m hn hm heq
    rw [hmk n hn, hmk m hm] at heq
    have hldata := congrArg String.data heq
    simp only [] at hldata
    have := Sheetra.letterValue_columnLetterAux n
    rw [show Sheetra.columnLetterAux n = Sheetra.columnLetterAux m from hldata,
      Sheetra.letterValue_columnLetterAux] at this
    omega
  · simp [Sheetra.columnToLetter, Sheetra.columnLetterAux]
  · simp [Sheetra.columnToLetter, Sheetra.columnLetterAux]
  · simp [Sheetra.columnToLetter, Sheetra.columnLetterAux]
  · simp [Sheetra.columnToLetter, Sheetra.columnLetterAux]
  · simp [Sheetra.columnToLetter, Sheetra.columnLetterAux]

/-- Witness for C6 at concrete inputs: 5 gets a non-empty string and
injectivity applied at 3 and 3. -/
theorem C6_column_letter_bijection_witness :
    Sheetra.columnToLetter 5 ≠ "" ∧ (3 : Nat) = 3 :=
  ⟨C6_column_letter_bijection.1 5 (by decide),
    C6_column_letter_bijection.2.1 3 3 (by decide) (by decide) rfl⟩

/-- C10 counterexample: the concrete operation sequence
`new Cell()` → `setFormula("=A1")` → `setValue(5)` ends in a cell whose
type is `'number'` while its formula text `"=A1"` is still present, so
the claimed invariant (formula text present only when the type is
`'formula'`) does not survive every operation sequence. -/
theorem C10_counterexample :
    ¬ (((Sheetra.Cell.new.setFormula "=A1").setValue
        (Sheetra.JSValue.num (Sheetra.JSNum.fin 5))).formula = none ∨
       ((Sheetra.Cell.new.setFormula "=A1").setValue
        (Sheetra.JSValue.num (Sheetra.JSNum.fin 5))).type =
          Sheetra.CellType.formula) := by
  decide

/-- C10 amended: `setFormula` always establishes the formula text
together with type `'formula'`, but `setValue` re-infers the type from
the new value without clearing the formula text, so `setValue` after
`setFormula` leaves a non-formula type with a retained (inert) formula
text. -/
theorem C10_cell_formula_invariant_amended :
    (∀ (c : Sheetra.Cell) (f : String),
      (c.setFormula f).type = Sheetra.CellType.formula ∧
      (c.setFormula f).formula = some f) ∧
    ((Sheetra.Cell.new.setFormula "=A1").setValue
      (Sheetra.JSValue.num (Sheetra.JSNum.fin 5))).type =
        Sheetra.CellType.number ∧
    ((Sheetra.Cell.new.setFormula "=A1").setValue
      (Sheetra.JSValue.num (Sheetra.JSNum.fin 5))).formula = some "=A1" := by
  refine ⟨fun c f => ⟨rfl, rfl⟩, rfl, rfl⟩

/-- C4 counterexample: at the unknown format key `"pdf"`,
`Workbook.export` does not fail at all — its `switch` falls through to
the spreadsheet writer and bytes are produced — while
`ExportBuilder.download` throws a plain untyped
`Error('Unsupported format')`; no typed `UnsupportedFormatError` exists
anywhere in the sources. -/
theorem C4_counterexample :
    Sheetra.Workbook.exportWriter (some "pdf") = Sheetra.WriterKind.excel ∧
    Sheetra.ExportBuilder.downloadWriter none (some "pdf") =
      Except.error "Unsupported format" := by
  constructor
  · rfl
  · rfl

/-- C4 amended: `ExportBuilder.download` rejects any non-empty format
key outside {xlsx, csv, json} synchronously (before the writer's
asynchronous step) with a generic `Error('Unsupported format')`, while
`Workbook.export` never rejects: unknown keys and the absent key alike
fall back to the spreadsheet writer, and `'csv'`/`'json'` select their
writers. -/
theorem C4_unsupported_format_amended :
    (∀ f : String, f ≠ "xlsx" → f ≠ "csv" → f ≠ "json" → f ≠ "" →
      Sheetra.ExportBuilder.downloadWriter none (some f) =
        Except.error "Unsupported format") ∧
    Sheetra.Workbook.exportWriter (some "pdf") = Sheetra.WriterKind.excel ∧
    Sheetra.Workbook.exportWriter none = Sheetra.WriterKind.excel ∧
    Sheetra.Workbook.exportWriter (some "csv") = Sheetra.WriterKind.csv ∧
    Sheetra.Workbook.exportWriter (some "json") = Sheetra.WriterKind.json := by
  refine ⟨?_, rfl, rfl, rfl, rfl⟩
  intro f h1 h2 h3 h4
  simp [Sheetra.ExportBuilder.downloadWriter, Sheetra.jsOrDefault, h1, h2, h3, h4]

/-- Witness for C4's amended theorem at the concrete format `"pdf"`. -/
theorem C4_unsupported_format_amended_witness :
    Sheetra.ExportBuilder.downloadWriter none (some "pdf") =
      Except.error "Unsupported format" :=
  C4_unsupported_format_amended.1 "pdf" (by decide) (by decide) (by decide)
    (by decide)

/-- C7 counterexample: the record dated 2024-01-01 receives the bucket
key `"2024-W1"`, not the claimed zero-padded `"2024-W01"` — the source
interpolates the raw week number with no padding. -/
theorem C7_counterexample :
    Sheetra.weekBucketKey 2024 1 1 = "2024-W1" ∧
    Sheetra.weekBucketKey 2024 1 1 ≠ "2024-W01" := by
  constructor
  · rfl
  · decide

/-- C7 amended: week bucket keys have the form
`<calendar year>-W<unpadded ISO week number>`: 2024-01-01 and
2024-01-08 get `"2024-W1"` and `"2024-W2"` (ISO weeks 1 and 2, weeks
starting Monday, week 1 holding the year's first Thursday), and —
because the year component is the record's calendar year rather than
the ISO week-year — 2024-12-30 (ISO week 2025-W01) gets `"2024-W1"`. -/
theorem C7_week_bucket_key_amended :
    Sheetra.weekBucketKey 2024 1 1 = "2024-W1" ∧
    Sheetra.weekBucketKey 2024 1 8 = "2024-W2" ∧
    Sheetra.getWeekNumber 2024 1 1 = 1 ∧
    Sheetra.getWeekNumber 2024 1 8 = 2 ∧
    Sheetra.weekBucketKey 2024 12 30 = "2024-W1" := by
  refine ⟨rfl, rfl, by decide, by decide, rfl⟩

/-- C3 counterexample: over the records `[{a: null}, {a: 3}]` both
aggregation sites report `count = 1` — the number of non-null field
values — while the record count is 2, so `count` is not independent of
field nullity as claimed. -/
theorem C3_counterexample :
    Sheetra.addSummaryRowAgg
        [[("a", Sheetra.JSValue.null)],
         [("a", Sheetra.JSValue.num (Sheetra.JSNum.fin 3))]] "a"
        Sheetra.AggFunc.count =
      Sheetra.JSValue.num (Sheetra.JSNum.fin 1) ∧
    Sheetra.addSummarySectionAgg
        [[("a", Sheetra.JSValue.null)],
         [("a", Sheetra.JSValue.num (Sheetra.JSNum.fin 3))]] "a"
        Sheetra.AggFunc.count =
      Sheetra.JSValue.num (Sheetra.JSNum.fin 1) ∧
    [[("a", Sheetra.JSValue.null)],
     [("a", Sheetra.JSValue.num (Sheetra.JSNum.fin 3))]].length = 2 := by
  refine ⟨by decide, by decide, rfl⟩

/-- C3 amended: `sum` over an empty set is 0 at both aggregation sites;
`average` over an empty set is `NaN` in `addSummarySection` but is
guarded to `0` in `Section.addSummaryRow`; `count` is the number of
non-null (for `addSummaryRow` also non-`NaN`) field values, not the
record count — over `[{a: null}, {a: 3}]` it is 1; `min`/`max` over the
field values {3, 7, 2} are 2 and 7, and over an empty filtered set are
`Infinity` and `-Infinity`. -/
theorem C3_aggregation_amended :
    (∀ field : String,
      Sheetra.addSummarySectionAgg [] field Sheetra.AggFunc.sum =
        Sheetra.JSValue.num (Sheetra.JSNum.fin 0) ∧
      Sheetra.addSummaryRowAgg [] field Sheetra.AggFunc.sum =
        Sheetra.JSValue.num (Sheetra.JSNum.fin 0)) ∧
    (∀ field : String,
      Sheetra.addSummarySectionAgg [] field Sheetra.AggFunc.average =
        Sheetra.JSValue.num Sheetra.JSNum.nan ∧
      Sheetra.addSummaryRowAgg [] field Sheetra.AggFunc.average =
        Sheetra.JSValue.num (Sheetra.JSNum.fin 0)) ∧
    (∀ field : String,
      Sheetra.addSummarySectionAgg [] field Sheetra.AggFunc.min =
        Sheetra.JSValue.num Sheetra.JSNum.inf ∧
      Sheetra.addSummarySectionAgg [] field Sheetra.AggFunc.max =
        Sheetra.JSValue.num Sheetra.JSNum.negInf ∧
      Sheetra.addSummaryRowAgg [] field Sheetra.AggFunc.min =
        Sheetra.JSValue.num Sheetra.JSNum.inf ∧
      Sheetra.addSummaryRowAgg [] field Sheetra.AggFunc.max =
        Sheetra.JSValue.num Sheetra.JSNum.negInf) ∧
    Sheetra.addSummaryRowAgg
        [[("a", Sheetra.JSValue.num (Sheetra.JSNum.fin 3))],
         [("a", Sheetra.JSValue.num (Sheetra.JSNum.fin 7))],
         [("a", Sheetra.JSValue.num (Sheetra.JSNum.fin 2))]] "a"
        Sheetra.AggFunc.min =
      Sheetra.JSValue.num (Sheetra.JSNum.fin 2) ∧
    Sheetra.addSummaryRowAgg
        [[("a", Sheetra.JSValue.num (Sheetra.JSNum.fin 3))],
         [("a", Sheetra.JSValue.num (Sheetra.JSNum.fin 7))],
         [("a", Sheetra.JSValue.num (Sheetra.JSNum.fin 2))]] "a"
        Sheetra.AggFunc.max =
      Sheetra.JSValue.num (Sheetra.JSNum.fin 7) ∧
    Sheetra.addSummaryRowAgg
        [[("a", Sheetra.JSValue.null)],
         [("a", Sheetra.JSValue.num (Sheetra.JSNum.fin 3))]] "a"
        Sheetra.AggFunc.count =
      Sheetra.JSValue.num (Sheetra.JSNum.fin 1) := by
  refine ⟨fun field => ⟨rfl, rfl⟩, fun field => ⟨rfl, rfl⟩,
    fun field => ⟨rfl, rfl, rfl, rfl⟩, by decide, by decide, by decide⟩

/-- C8: on a first worksheet whose header row contains an empty cell,
the JSON writer does not substitute a positional placeholder — the
fallback expression dereferences `headers` inside its own initializer,
so the export throws instead; with all headers non-empty, every
subsequent row does become one record keyed by the headers. -/
theorem C8_empty_header_throws :
    Sheetra.generateJSONData
        [{ cells := [Sheetra.Cell.make (Sheetra.JSValue.str "Name") none,
                     Sheetra.Cell.make (Sheetra.JSValue.str "") none] },
         { cells := [Sheetra.Cell.make (Sheetra.JSValue.str "John") none,
                     Sheetra.Cell.make
                       (Sheetra.JSValue.num (Sheetra.JSNum.fin 30)) none] }] =
      Except.error
        "ReferenceError: cannot access headers before initialization" ∧
    Sheetra.generateJSONData
        [{ cells := [Sheetra.Cell.make (Sheetra.JSValue.str "Name") none,
                     Sheetra.Cell.make (Sheetra.JSValue.str "Age") none] },
         { cells := [Sheetra.Cell.make (Sheetra.JSValue.str "John") none,
                     Sheetra.Cell.make
                       (Sheetra.JSValue.num (Sheetra.JSNum.fin 30)) none] }] =
      Except.ok
        [[("Name", Sheetra.JSValue.str "John"),
          ("Age", Sheetra.JSValue.num (Sheetra.JSNum.fin 30))]] := by
  refine ⟨rfl, rfl⟩

namespace Sheetra

theorem append_colon_ne_empty (a b : String) : a ++ ": " ++ b ≠ "" := by
  intro h
  have hl := congrArg String.length h
  rw [String.length_append, String.length_append] at hl
  have h1 : (": ").length = 2 := rfl
  have h2 : ("" : String).length = 0 := rfl
  omega

theorem sectionBuild_groupSub (k : String) (lvl : Int) (flds : List String)
    (fl : List (String × String)) (sm : Option (List String × List AggFunc))
    (p : String × List Rec) (ws : Worksheet) (sr : Int) :
    sectionBuild ws (mkGroupSub k lvl flds fl sm p) sr =
      (ws.appendRow
        (sectionHeaderRow (k ++ ": " ++ p.1) (lvl + 1) true (!p.2.isEmpty)),
        sr + 1) := by
  rw [mkGroupSub, sectionBuild]
  have ht : jsStrTruthy (some (k ++ ": " ++ p.1)) = true := by
    simp [jsStrTruthy, append_colon_ne_empty]
  simp [ht, sectionHasContent, sectionHeaderRow]

theorem sectionBuildList_groupSubs (k : String) (lvl : Int)
    (flds : List String) (fl : List (String × String))
    (sm : Option (List String × List AggFunc))
    (entries : List (String × List Rec)) :
    ∀ (ws : Worksheet) (sr : Int),
      sectionBuildList ws (entries.map (mkGroupSub k lvl flds fl sm)) sr =
        ({ ws with
            rows := ws.rows ++ entries.map fun p =>
              sectionHeaderRow (k ++ ": " ++ p.1) (lvl + 1) true
                (!p.2.isEmpty) },
          sr + entries.length) := by
  induction entries with
  | nil => intro ws sr; simp [sectionBuildList]
  | cons p rest ih =>
    intro ws sr
    rw [List.map_cons, sectionBuildList, sectionBuild_groupSub, ih]
    refine Prod.ext ?_ ?_
    · simp [Worksheet.appendRow]
    · show sr + 1 + (rest.length : Int) = sr + ((rest.length : Int) + 1)
      omega

theorem groupData_go (gk : String) (l : List Rec) :
    ∀ (acc : List (String × List Rec)) (done : List Rec),
      (∀ p ∈ acc,
        p.2 = done.filter fun it => jsToString (jsGet it gk) = p.1) →
      (∀ k, (∀ p ∈ acc, p.1 ≠ k) →
        done.filter (fun it => jsToString (jsGet it gk) = k) = []) →
      (∀ it ∈ done, ∃ p ∈ acc, p.1 = jsToString (jsGet it gk)) →
      (∀ p ∈ l.foldl (groupDataStep gk) acc,
        p.2 = (done ++ l).filter fun it => jsToString (jsGet it gk) = p.1) ∧
      (∀ k, (∀ p ∈ l.foldl (groupDataStep gk) acc, p.1 ≠ k) →
        (done ++ l).filter (fun it => jsToString (jsGet it gk) = k) = []) ∧
      (∀ it ∈ done ++ l, ∃ p ∈ l.foldl (groupDataStep gk) acc,
        p.1 = jsToString (jsGet it gk)) := by
  induction l with
  | nil =>
    intro acc done h1 h2 h3
    rw [List.foldl_nil, List.append_nil]
    exact ⟨h1, h2, h3⟩
  | cons item rest ih =>
    intro acc done h1 h2 h3
    rw [List.foldl_cons]
    have hassoc : done ++ item :: rest = (done ++ [item]) ++ rest := by simp
    rw [hassoc]
    rcases hfind : acc.find? (fun p => p.1 = jsToString (jsGet item gk)) with
        _ | q
    · -- no group with this key yet: a fresh group is appended
      have hnone : ∀ p ∈ acc, ¬(p.1 = jsToString (jsGet item gk)) := by
        intro p hp
        have := List.find?_eq_none.mp hfind p hp
        simpa using this
      have hstep : groupDataStep gk acc item =
          acc ++ [(jsToString (jsGet item gk), [item])] := by
        rw [groupDataStep]
        simp only [hfind]
      rw [hstep]
      refine ih _ _ ?_ ?_ ?_
      · intro p hp
        rcases List.mem_append.mp hp with hp | hp
        · rw [List.filter_append, h1 p hp]
          have : (jsToString (jsGet item gk) = p.1) = False := by
            simp
            intro hcon
            exact hnone p hp hcon.symm
          simp [List.filter_cons, this]
        · rcases List.mem_singleton.mp hp with rfl
          rw [List.filter_append]
          have hdone :
              done.filter
                (fun it => jsToString (jsGet it gk) =
                  jsToString (jsGet item gk)) = [] := by
            refine h2 _ ?_
            intro p hp
            intro hcon
            exact hnone p hp hcon
          rw [hdone]
          simp [List.filter_cons]
      · intro k hk
        have hk1 : ∀ p ∈ acc, p.1 ≠ k := fun p hp =>
          hk p (List.mem_append.mpr (Or.inl hp))
        have hk2 : jsToString (jsGet item gk) ≠ k := by
          have := hk (jsToString (jsGet item gk), [item])
            (List.mem_append.mpr (Or.inr (List.mem_singleton.mpr rfl)))
          simpa using this
        rw [List.filter_append, h2 k hk1]
        simp [List.filter_cons, hk2]
      · intro it hit
        rcases List.mem_append.mp hit with hit | hit
        · rcases h3 it hit with ⟨p, hp, hkey⟩
          exact ⟨p, List.mem_append.mpr (Or.inl hp), hkey⟩
        · have heq : it = item := List.mem_singleton.mp hit
          subst heq
          exact ⟨(jsToString (jsGet it gk), [it]),
            List.mem_append.mpr (Or.inr (List.mem_singleton.mpr rfl)), rfl⟩
    · -- the key's group exists: the record is appended to it
      have hq : q ∈ acc := List.mem_of_find?_eq_some hfind
      have hqkey : q.1 = jsToString (jsGet item gk) := by
        have := List.find?_some hfind
        simpa using this
      have hstep : groupDataStep gk acc item =
          acc.map fun p =>
            if p.1 = jsToString (jsGet item gk) then (p.1, p.2 ++ [item])
            else p := by
        rw [groupDataStep]
        simp only [hfind]
      rw [hstep]
      refine ih _ _ ?_ ?_ ?_
      · intro p' hp'
        rcases List.mem_map.mp hp' with ⟨p, hp, rfl⟩
        by_cases hpk : p.1 = jsToString (jsGet item gk)
        · simp only [if_pos hpk]
          rw [List.filter_append, h1 p hp]
          simp [List.filter_cons, hpk.symm]
        · simp only [if_neg hpk]
          rw [List.filter_append, h1 p hp]
          have : ¬(jsToString (jsGet item gk) = p.1) := fun hcon =>
            hpk hcon.symm
          simp [List.filter_cons, this]
      · intro k hk
        have hk1 : ∀ p ∈ acc, p.1 ≠ k := by
          intro p hp
          have hmem : (if p.1 = jsToString (jsGet item gk) then
              (p.1, p.2 ++ [item]) else p) ∈
              acc.map fun p =>
                if p.1 = jsToString (jsGet item gk) then (p.1, p.2 ++ [item])
                else p :=
            List.mem_map.mpr ⟨p, hp, rfl⟩
          have := hk _ hmem
          by_cases hpk : p.1 = jsToString (jsGet item gk) <;>
            simpa [hpk] using this
        have hk2 : jsToString (jsGet item gk) ≠ k := by
          intro hcon
          exact hk1 q hq (hqkey.trans hcon)
        rw [List.filter_append, h2 k hk1]
        simp [List.filter_cons, hk2]
      · intro it hit
        rcases List.mem_append.mp hit with hit | hit
        · rcases h3 it hit with ⟨p, hp, hkey⟩
          refine ⟨if p.1 = jsToString (jsGet item gk) then (p.1, p.2 ++ [item])
            else p, List.mem_map.mpr ⟨p, hp, rfl⟩, ?_⟩
          by_cases hpk : p.1 = jsToString (jsGet item gk)
          · simp only [if_pos hpk]
            exact hkey
          · simp only [if_neg hpk]
            exact hkey
        · have heq : it = item := List.mem_singleton.mp hit
          subst heq
          refine ⟨(q.1, q.2 ++ [it]), ?_, hqkey⟩
          have hform : (if q.1 = jsToString (jsGet it gk) then (q.1, q.2 ++ [it])
              else q) = (q.1, q.2 ++ [it]) := by
            simp [hqkey]
          exact hform ▸ List.mem_map.mpr ⟨q, hq, rfl⟩

theorem groupData_filter (data : List Rec) (gk : String) :
    ∀ p ∈ groupData data gk,
      p.2 = data.filter fun it => jsToString (jsGet it gk) = p.1 := by
  have h := groupData_go gk data [] [] (by simp) (by simp) (by simp)
  simpa [groupData] using h.1

theorem groupData_covers (data : List Rec) (gk : String) :
    ∀ it ∈ data, ∃ p ∈ groupData data gk,
      p.1 = jsToString (jsGet it gk) := by
  have h := groupData_go gk data [] [] (by simp) (by simp) (by simp)
  simpa [groupData] using h.2.2

theorem groupDataStep_ne_nil (gk : String) (acc : List (String × List Rec))
    (item : Rec) : groupDataStep gk acc item ≠ [] := by
  rw [groupDataStep]
  cases hfind : acc.find? (fun p => p.1 = jsToString (jsGet item gk)) with
  | none => simp
  | some q =>
    simp only []
    have : q ∈ acc := List.mem_of_find?_eq_some hfind
    intro hcon
    rw [List.map_eq_nil_iff] at hcon
    subst hcon
    simp at this

theorem foldl_groupDataStep_ne_nil (gk : String) (l : List Rec) :
    ∀ acc, acc ≠ [] → l.foldl (groupDataStep gk) acc ≠ [] := by
  induction l with
  | nil => intro acc h; simpa using h
  | cons item rest ih =>
    intro acc _
    rw [List.foldl_cons]
    exact ih _ (groupDataStep_ne_nil gk acc item)

theorem groupData_ne_nil (data : List Rec) (gk : String) (h : data ≠ []) :
    groupData data gk ≠ [] := by
  cases data with
  | nil => exact absurd rfl h
  | cons item rest =>
    rw [groupData, List.foldl_cons]
    exact foldl_groupDataStep_ne_nil gk rest _ (groupDataStep_ne_nil gk [] item)

theorem insertByKeyValue_ne_nil (x : String × List Rec)
    (ys : List (String × List Rec)) : insertByKeyValue x ys ≠ [] := by
  cases ys with
  | nil => simp [insertByKeyValue]
  | cons y t =>
    rw [insertByKeyValue]
    split <;> simp

theorem jsObjectEntries_ne_nil (l : List (String × List Rec)) (h : l ≠ []) :
    jsObjectEntries l ≠ [] := by
  cases l with
  | nil => exact absurd rfl h
  | cons x xs =>
    intro hcon
    rw [jsObjectEntries] at hcon
    rcases List.append_eq_nil.mp hcon with ⟨ha, hb⟩
    by_cases hx : isArrayIndexKey x.1
    · have hfx : (x :: xs).filter (fun p => isArrayIndexKey p.1) ≠ [] := by
        simp [List.filter_cons, hx]
      rcases hfc : (x :: xs).filter (fun p => isArrayIndexKey p.1) with
          _ | ⟨y, ys⟩
      · exact hfx hfc
      · rw [hfc, List.foldr_cons] at ha
        exact insertByKeyValue_ne_nil _ _ ha
    · have : (x :: xs).filter (fun p => !isArrayIndexKey p.1) ≠ [] := by
        simp [List.filter_cons, hx]
      exact this hb

theorem jsObjectEntries_of_no_index (l : List (String × List Rec))
    (h : ∀ p ∈ l, isArrayIndexKey p.1 = false) : jsObjectEntries l = l := by
  rw [jsObjectEntries]
  have h1 : l.filter (fun p => isArrayIndexKey p.1) = [] := by
    rw [List.filter_eq_nil_iff]
    intro a ha
    simp [h a ha]
  have h2 : l.filter (fun p => !isArrayIndexKey p.1) = l := by
    rw [List.filter_eq_self]
    intro a ha
    simp [h a ha]
  rw [h1, h2]
  simp

theorem sectionBuild_mainGrouped (ws : Worksheet) (title : String)
    (lvl : Int) (subs : List SectionConfig) (sr : Int) (ht : title ≠ "")
    (hs : subs ≠ []) :
    sectionBuild ws
      (SectionConfig.mk (some title) lvl false [] none [] none none none
        none (some subs)) sr =
      sectionBuildList (ws.appendRow (sectionHeaderRow title lvl false true))
        subs (sr + 1) := by
  rw [sectionBuild]
  have htr : jsStrTruthy (some title) = true := by simp [jsStrTruthy, ht]
  have hcontent : sectionHasContent [] (some subs) = true := by
    simp [sectionHasContent, List.isEmpty_iff, hs]
  simp [htr, hcontent, sectionHeaderRow]

theorem createFromDataGrouped_shape (ws : Worksheet) (title : String)
    (data : List Rec) (gk : String) (fields : Option (List String))
    (fl : List (String × String)) (lvl : Int)
    (sm : Option (List String × List AggFunc)) (sr : Int)
    (ht : title ≠ "") (hd : data ≠ []) :
    createFromDataGrouped ws title data gk fields fl lvl false sm sr =
      ({ ws with
          rows := ws.rows ++
            sectionHeaderRow title lvl false true ::
              (jsObjectEntries (groupData data gk)).map fun p =>
                sectionHeaderRow (gk ++ ": " ++ p.1) (lvl + 1) true
                  (!p.2.isEmpty) },
        sr + 1 + (jsObjectEntries (groupData data gk)).length) := by
  have hentries : jsObjectEntries (groupData data gk) ≠ [] :=
    jsObjectEntries_ne_nil _ (groupData_ne_nil data gk hd)
  simp only [createFromDataGrouped]
  rw [sectionBuild_mainGrouped _ _ _ _ _ ht
    (fun hcon => hentries (List.map_eq_nil_iff.mp hcon))]
  rw [sectionBuildList_groupSubs]
  simp [Worksheet.appendRow]

theorem sbWFb_built {st : SBState} (hwf : sbWFb st = true) {t : StyleTop}
    (ht : t ∈ st.built) {a : Nat} (ha : t.borderRef = some a) :
    a < st.heap.length := by
  simp only [sbWFb, Bool.and_eq_true, List.all_eq_true] at hwf
  have h := hwf.1 t ht
  rw [ha] at h
  simpa using h

theorem sbObserve_heap_append {heap : List Border} {x : Border} {t : StyleTop}
    (h : ∀ a, t.borderRef = some a → a < heap.length) :
    sbObserve (heap ++ [x]) t = sbObserve heap t := by
  cases hb : t.borderRef with
  | none => simp [sbObserve, hb]
  | some a =>
    have ha := h a hb
    have hgd : (heap ++ [x])[a]? = heap[a]? := List.getElem?_append_left ha
    simp [sbObserve, hb, hgd, List.getD_eq_getElem?_getD]

end Sheetra

/-- C9 counterexample: build a style after `borderTop('thin')`, then
call `borderTop('thick')` on the same builder — the previously returned
style's observed border changes from thin to thick, because `build()`
copies only the top level and the nested border record is shared. -/
theorem C9_counterexample :
    (Sheetra.sbObserve
        (Sheetra.sbRun [Sheetra.SBOp.borderTop "thin" none,
          Sheetra.SBOp.build]).heap
        ((Sheetra.sbRun [Sheetra.SBOp.borderTop "thin" none,
          Sheetra.SBOp.build]).built.getD 0 {})).border =
      some { top := some { style := "thin", color := none } } ∧
    (Sheetra.sbObserve
        (Sheetra.sbRun [Sheetra.SBOp.borderTop "thin" none,
          Sheetra.SBOp.build, Sheetra.SBOp.borderTop "thick" none]).heap
        ((Sheetra.sbRun [Sheetra.SBOp.borderTop "thin" none,
          Sheetra.SBOp.build, Sheetra.SBOp.borderTop "thick" none]).built.getD
          0 {})).border =
      some { top := some { style := "thick", color := none } } ∧
    (Sheetra.sbRun [Sheetra.SBOp.borderTop "thin" none, Sheetra.SBOp.build,
        Sheetra.SBOp.borderTop "thick" none]).built =
      (Sheetra.sbRun [Sheetra.SBOp.borderTop "thin" none,
        Sheetra.SBOp.build]).built := by
  refine ⟨rfl, rfl, rfl⟩

/-- C9 amended: `build()` is a shallow copy with value semantics for
everything except an aliased border record: any call that is not a
border-side mutation on an existing border — every top-level field
setter, `border(...)` and `borderAll(...)` (which install a fresh
record), a border-side call made while no border exists, and `build`
itself — leaves the observed value of every previously returned style
unchanged.  (The excluded case really does mutate previously returned
styles, see the counterexample.) -/
theorem C9_build_shallow_copy_amended (st : Sheetra.SBState)
    (op : Sheetra.SBOp) (hwf : Sheetra.sbWFb st = true)
    (hsafe : Sheetra.sbSafeOpb st op = true) :
    ∀ t ∈ st.built,
      Sheetra.sbObserve (Sheetra.sbStep st op).heap t =
        Sheetra.sbObserve st.heap t := by
  intro t ht
  have hmem : ∀ a, t.borderRef = some a → a < st.heap.length :=
    fun a ha => Sheetra.sbWFb_built hwf ht ha
  cases op with
  | bold b => rfl
  | italic b => rfl
  | underline b => rfl
  | fontSize n => rfl
  | fontFamily s => rfl
  | color s => rfl
  | backgroundColor s => rfl
  | align s => rfl
  | verticalAlign s => rfl
  | wrapText b => rfl
  | numberFormat s => rfl
  | build => rfl
  | border b => exact Sheetra.sbObserve_heap_append hmem
  | borderAll s c => exact Sheetra.sbObserve_heap_append hmem
  | borderTop s c =>
    have hnone : st.cur.borderRef = none := by
      simpa [Sheetra.sbSafeOpb, Option.isNone_iff_eq_none] using hsafe
    show Sheetra.sbObserve (Sheetra.sbSetSide st _).heap t = _
    rw [Sheetra.sbSetSide, hnone]
    exact Sheetra.sbObserve_heap_append hmem
  | borderRight s c =>
    have hnone : st.cur.borderRef = none := by
      simpa [Sheetra.sbSafeOpb, Option.isNone_iff_eq_none] using hsafe
    show Sheetra.sbObserve (Sheetra.sbSetSide st _).heap t = _
    rw [Sheetra.sbSetSide, hnone]
    exact Sheetra.sbObserve_heap_append hmem
  | borderBottom s c =>
    have hnone : st.cur.borderRef = none := by
      simpa [Sheetra.sbSafeOpb, Option.isNone_iff_eq_none] using hsafe
    show Sheetra.sbObserve (Sheetra.sbSetSide st _).heap t = _
    rw [Sheetra.sbSetSide, hnone]
    exact Sheetra.sbObserve_heap_append hmem
  | borderLeft s c =>
    have hnone : st.cur.borderRef = none := by
      simpa [Sheetra.sbSafeOpb, Option.isNone_iff_eq_none] using hsafe
    show Sheetra.sbObserve (Sheetra.sbSetSide st _).heap t = _
    rw [Sheetra.sbSetSide, hnone]
    exact Sheetra.sbObserve_heap_append hmem

/-- Witness for C9's amended theorem: after `borderTop('thin')` and a
`build()`, a later `bold(true)` leaves the built style's observed value
unchanged. -/
theorem C9_build_shallow_copy_amended_witness :
    Sheetra.sbObserve
        (Sheetra.sbStep
          (Sheetra.sbRun [Sheetra.SBOp.borderTop "thin" none,
            Sheetra.SBOp.build]) (Sheetra.SBOp.bold true)).heap
        { borderRef := some 0 } =
      Sheetra.sbObserve
        (Sheetra.sbRun [Sheetra.SBOp.borderTop "thin" none,
          Sheetra.SBOp.build]).heap { borderRef := some 0 } :=
  C9_build_shallow_copy_amended
    (Sheetra.sbRun [Sheetra.SBOp.borderTop "thin" none, Sheetra.SBOp.build])
    (Sheetra.SBOp.bold true) (by decide) (by decide)
    { borderRef := some 0 } (by decide)

/-- C2 counterexample: one record grouped by key `"g"` via
`createFromData` produces a built worksheet of exactly two rows — the
main section header and one group header — and no emitted cell carries
the record's field value `1`: the group subsections are created
collapsed, so zero data rows are emitted, not one per input record. -/
theorem C2_counterexample :
    (Sheetra.createFromDataGrouped { name := "S" } "T"
        [[("g", Sheetra.JSValue.str "a"),
          ("v", Sheetra.JSValue.num (Sheetra.JSNum.fin 1))]] "g" none [] 0
        false none 0).1.rows.length = 2 ∧
    ((Sheetra.createFromDataGrouped { name := "S" } "T"
        [[("g", Sheetra.JSValue.str "a"),
          ("v", Sheetra.JSValue.num (Sheetra.JSNum.fin 1))]] "g" none [] 0
        false none 0).1.rows.all fun r =>
      r.cells.all fun c =>
        !(decide (c.value = Sheetra.JSValue.num (Sheetra.JSNum.fin 1)))) =
      true ∧
    ([[("g", Sheetra.JSValue.str "a"),
       ("v", Sheetra.JSValue.num (Sheetra.JSNum.fin 1))]] :
      List Sheetra.Rec).length = 1 := by
  have h := Sheetra.createFromDataGrouped_shape { name := "S" } "T"
    [[("g", Sheetra.JSValue.str "a"),
      ("v", Sheetra.JSValue.num (Sheetra.JSNum.fin 1))]] "g" none [] 0 none 0
    (by decide) (by decide)
  refine ⟨?_, ?_, rfl⟩
  · rw [h]
    decide
  · rw [h]
    decide

/-- C2 amended: `createFromData` with a `groupBy` key partitions the
records stably — each group is exactly the sublist of records whose
stringified key equals the group's key, and every record's key heads
some group — and creates one subsection per distinct key; the
subsections appear in JavaScript object-enumeration order, which is
first-seen key order whenever no key is a canonical integer string
(integer-like keys would come first, in ascending numeric order).  But
every group subsection is created collapsed, so building emits exactly
the main header row followed by one header row per group and **zero**
data rows. -/
theorem C2_grouped_sections_amended (ws : Sheetra.Worksheet) (title : String)
    (data : List Sheetra.Rec) (gk : String)
    (fields : Option (List String)) (fl : List (String × String))
    (lvl : Int) (sm : Option (List String × List Sheetra.AggFunc))
    (sr : Int) (ht : title ≠ "") (hd : data ≠ []) :
    Sheetra.createFromDataGrouped ws title data gk fields fl lvl false sm
        sr =
      ({ ws with
          rows := ws.rows ++
            Sheetra.sectionHeaderRow title lvl false true ::
              (Sheetra.jsObjectEntries (Sheetra.groupData data gk)).map
                fun p =>
                  Sheetra.sectionHeaderRow (gk ++ ": " ++ p.1) (lvl + 1) true
                    (!p.2.isEmpty) },
        sr + 1 +
          (Sheetra.jsObjectEntries (Sheetra.groupData data gk)).length) ∧
    (∀ p ∈ Sheetra.groupData data gk,
      p.2 = data.filter fun it =>
        Sheetra.jsToString (Sheetra.jsGet it gk) = p.1) ∧
    (∀ it ∈ data, ∃ p ∈ Sheetra.groupData data gk,
      p.1 = Sheetra.jsToString (Sheetra.jsGet it gk)) ∧
    ((∀ p ∈ Sheetra.groupData data gk,
        Sheetra.isArrayIndexKey p.1 = false) →
      Sheetra.jsObjectEntries (Sheetra.groupData data gk) =
        Sheetra.groupData data gk) :=
  ⟨Sheetra.createFromDataGrouped_shape ws title data gk fields fl lvl sm sr
      ht hd,
    Sheetra.groupData_filter data gk,
    Sheetra.groupData_covers data gk,
    Sheetra.jsObjectEntries_of_no_index _⟩

/-- Witness for C2's amended theorem at a one-record input with the
non-integer key `"a"`: the group enumeration keeps first-seen order. -/
theorem C2_grouped_sections_amended_witness :
    Sheetra.jsObjectEntries
        (Sheetra.groupData [[("g", Sheetra.JSValue.str "a")]] "g") =
      Sheetra.groupData [[("g", Sheetra.JSValue.str "a")]] "g" :=
  (C2_grouped_sections_amended { name := "S" } "T"
      [[("g", Sheetra.JSValue.str "a")]] "g" none [] 0 none 0
      (by decide) (by decide)).2.2.2 (by decide)
